import Mathlib

/-!
Verification of the leftover-label-printer core against its specification.

This file gives a shallow embedding of the five core components:

* the print-job state-transition engine
  (`src/backend/src/print-jobs/state-machine-contract.ts`),
* the idempotent submission guard (same file, second half),
* the command publisher (`src/backend/src/print-jobs/print-job-command-publisher.ts`),
* the command consumer loop (agent `mqttconsume` package and the TypeScript
  consumer in the repository; both implement the same contract),
* the job executor (`src/agent/internal/jobexec/executor.go`),

together with theorems settling the specification's claims about them.

Modelling conventions:
* JavaScript `Set<string>` values are modelled as duplicate-free `List String`
  with `Set.has` as `List.contains` and `Set.add` as append-if-absent.
* Go `map[string]struct{}` membership sets are modelled the same way.
* Fallible operations return `Option`/`Except`; thrown errors are `Except.error`.
* I/O collaborators (document store, MQTT transport, HTTP client, filesystem,
  `lp` invocation) are passed in explicitly as oracle values describing what
  the collaborator returned, mirroring the dependency-injection seams the
  source code itself exposes for its tests.
-/

/-! ## State-transition engine (state-machine-contract.ts) -/

/-- The five lifecycle states (`PRINT_JOB_STATES`). -/
inductive PrintJobState
  | pending
  | processing
  | dispatched
  | printed
  | failed
deriving DecidableEq, Repr, BEq

/-- `TransitionSource`: which party requests a transition. -/
inductive TransitionSource
  | backend
  | agent
deriving DecidableEq, Repr, BEq

/-- `TransitionEvent` from the contract. -/
structure TransitionEvent where
  eventId : String
  traceId : String
  source : TransitionSource
  targetState : PrintJobState
  occurredAt : String
deriving DecidableEq, Repr

/-- `TransitionRejectReason` from the contract. -/
inductive TransitionRejectReason
  | duplicate_event
  | invalid_transition
  | authority_violation
  | terminal_state_locked
deriving DecidableEq, Repr, BEq

/-- `TransitionAuditRecord`: the rejected-branch structured audit record.
The constant `event`/`level` string fields of the source record are kept. -/
structure TransitionAuditRecord where
  event : String
  level : String
  jobId : String
  eventId : String
  traceId : String
  source : TransitionSource
  previousState : PrintJobState
  targetState : PrintJobState
  reason : TransitionRejectReason
  occurredAt : String
deriving DecidableEq, Repr

/-- `TransitionLogRecord`: the accepted-branch structured log record. -/
structure TransitionLogRecord where
  event : String
  level : String
  jobId : String
  eventId : String
  traceId : String
  source : TransitionSource
  previousState : PrintJobState
  targetState : PrintJobState
  occurredAt : String
deriving DecidableEq, Repr

/-- `TransitionDecision`: accepted or rejected outcome of the engine. -/
inductive TransitionDecision
  | accepted (nextState : PrintJobState) (processedEventIds : List String)
      (log : TransitionLogRecord)
  | rejected (reason : TransitionRejectReason) (nextState : PrintJobState)
      (processedEventIds : List String) (audit : TransitionAuditRecord)
deriving DecidableEq, Repr

/-- Input record of `applyPrintJobTransition`. -/
structure TransitionInput where
  jobId : String
  currentState : PrintJobState
  event : TransitionEvent
  processedEventIds : List String
deriving Repr

/-- `TERMINAL_STATES` set. -/
def TERMINAL_STATES : List PrintJobState := [.printed, .failed]

/-- `MATRIX`: the five allowed `from->to` edges. -/
def MATRIX : List (PrintJobState × PrintJobState) :=
  [(.pending, .processing), (.processing, .dispatched), (.processing, .failed),
   (.dispatched, .printed), (.dispatched, .failed)]

/-- `isTransitionAllowed(from, to)` as in the source: membership in `MATRIX`. -/
def isTransitionAllowed (fromState toState : PrintJobState) : Bool :=
  MATRIX.contains (fromState, toState)

/-- `sourceCanApplyTransition(from, to, source)`: the `switch` on the
transition key from the source. -/
def sourceCanApplyTransition (fromState toState : PrintJobState)
    (source : TransitionSource) : Bool :=
  match fromState, toState with
  | .pending, .processing => source == .backend
  | .processing, .dispatched => source == .backend
  | .processing, .failed => source == .backend
  | .dispatched, .printed => source == .agent
  | .dispatched, .failed => source == .agent
  | _, _ => false

/-- JavaScript `Set.add`: inserts at the end when absent, no-op when present. -/
def setAdd (xs : List String) (x : String) : List String :=
  if xs.contains x then xs else xs ++ [x]

/-- `buildAuditRecord(input, reason)` from the source. -/
def buildAuditRecord (input : TransitionInput) (reason : TransitionRejectReason) :
    TransitionAuditRecord :=
  { event := "job_transition_rejected"
    level := "warn"
    jobId := input.jobId
    eventId := input.event.eventId
    traceId := input.event.traceId
    source := input.event.source
    previousState := input.currentState
    targetState := input.event.targetState
    reason := reason
    occurredAt := input.event.occurredAt }

/-- `applyPrintJobTransition(input)`: the transition engine's decision
function, mirroring the source's ordered checks. -/
def applyPrintJobTransition (input : TransitionInput) : TransitionDecision :=
  let processedEventIds := input.processedEventIds
  let event := input.event
  if processedEventIds.contains event.eventId then
    .rejected .duplicate_event input.currentState processedEventIds
      (buildAuditRecord input .duplicate_event)
  else if TERMINAL_STATES.contains input.currentState then
    .rejected .terminal_state_locked input.currentState processedEventIds
      (buildAuditRecord input .terminal_state_locked)
  else if !(isTransitionAllowed input.currentState event.targetState) then
    .rejected .invalid_transition input.currentState processedEventIds
      (buildAuditRecord input .invalid_transition)
  else if !(sourceCanApplyTransition input.currentState event.targetState event.source) then
    .rejected .authority_violation input.currentState processedEventIds
      (buildAuditRecord input .authority_violation)
  else
    .accepted event.targetState (setAdd processedEventIds event.eventId)
      { event := "job_transition_applied"
        level := "info"
        jobId := input.jobId
        eventId := event.eventId
        traceId := event.traceId
        source := event.source
        previousState := input.currentState
        targetState := event.targetState
        occurredAt := event.occurredAt }

/-- Next state carried by a decision. -/
def TransitionDecision.nextState : TransitionDecision → PrintJobState
  | .accepted nextState _ _ => nextState
  | .rejected _ nextState _ _ => nextState

/-- Processed-event set carried by a decision. -/
def TransitionDecision.processed : TransitionDecision → List String
  | .accepted _ processedEventIds _ => processedEventIds
  | .rejected _ _ processedEventIds _ => processedEventIds

/-- Whether a decision is an acceptance. -/
def TransitionDecision.isAccepted : TransitionDecision → Bool
  | .accepted _ _ _ => true
  | .rejected _ _ _ _ => false

/-- The reject reason, when the decision is a rejection. -/
def TransitionDecision.rejectReason : TransitionDecision → Option TransitionRejectReason
  | .accepted _ _ _ => none
  | .rejected reason _ _ _ => some reason

/-! ### Specification-side decision rule (for the refinement claim C1)

The claim describes the decision as an ordered rule over a single table of
edges each carrying its authorized source.  The following definitions follow
the claim's words (not the source, which keeps the edge set and the authority
switch separate); claim C1 is the proof that the two agree. -/

/-- The claim's edge table: `(from, to, authorized source)` for the five
edges, backend for the first three, agent for the last two. -/
def SPEC_EDGE_TABLE : List (PrintJobState × PrintJobState × TransitionSource) :=
  [(.pending, .processing, .backend),
   (.processing, .dispatched, .backend),
   (.processing, .failed, .backend),
   (.dispatched, .printed, .agent),
   (.dispatched, .failed, .agent)]

/-- Outcome shape used by the claim: accept with next state and updated
processed set, or reject with a reason. -/
inductive SpecDecision
  | accept (nextState : PrintJobState) (processedEventIds : List String)
  | reject (reason : TransitionRejectReason)
deriving DecidableEq, Repr

/-- The claim's ordered decision rule, word for word: duplicate check, then
terminal lock, then edge-table lookup, then authority comparison, then
accept with the eventId added to the processed set. -/
def specDecide (currentState : PrintJobState) (event : TransitionEvent)
    (processedEventIds : List String) : SpecDecision :=
  if processedEventIds.contains event.eventId then
    .reject .duplicate_event
  else if currentState = .printed ∨ currentState = .failed then
    .reject .terminal_state_locked
  else
    match SPEC_EDGE_TABLE.find? (fun edge =>
        edge.1 == currentState && edge.2.1 == event.targetState) with
    | none => .reject .invalid_transition
    | some (_, _, authorizedSource) =>
      if authorizedSource ≠ event.source then
        .reject .authority_violation
      else
        .accept event.targetState (processedEventIds ++ [event.eventId])

/-- Projection from the engine's decision to the claim's outcome shape. -/
def TransitionDecision.toSpec : TransitionDecision → SpecDecision
  | .accepted nextState processedEventIds _ => .accept nextState processedEventIds
  | .rejected reason _ _ _ => .reject reason

/-! ## Idempotent submission guard (state-machine-contract.ts, second half)

The document store behind the `PrintJobStore` interface is modelled as an
in-memory list of records whose `insert` enforces the uniqueness constraint
on `idempotencyKey` (the persistence collaborator of §6).  The concurrent
writer that can win the race between our `findByIdempotencyKey` and our
`insert` is modelled explicitly as an optional `interference` record that a
competing submission persists in that window. -/

/-- `PrintJobRecord` from the contract. -/
structure PrintJobRecord where
  jobId : String
  idempotencyKey : String
  printerId : String
  templateId : String
  templateVersion : Option String
  state : PrintJobState
  acceptedAt : String
  traceId : String
deriving DecidableEq, Repr

/-- `CreatePrintJobInput` from the contract. -/
structure CreatePrintJobInput where
  idempotencyKey : String
  printerId : String
  templateId : String
  templateVersion : Option String
  traceId : String
  acceptedAt : String
deriving DecidableEq, Repr

/-- `PrintJobAcceptedResponse` from the contract. -/
structure PrintJobAcceptedResponse where
  jobId : String
  state : PrintJobState
  acceptedAt : String
  traceId : String
deriving DecidableEq, Repr

/-- `IdempotentSubmissionResult` from the contract. -/
structure IdempotentSubmissionResult where
  job : PrintJobRecord
  response : PrintJobAcceptedResponse
  duplicate : Bool
deriving DecidableEq, Repr

/-- `DuplicateIdempotencyKeyError` — the only store error the guard handles. -/
inductive StoreError
  | duplicateIdempotencyKey (idempotencyKey : String)
deriving DecidableEq, Repr

/-- The store's `findByIdempotencyKey`: point lookup by key. -/
def findByIdempotencyKey (store : List PrintJobRecord) (idempotencyKey : String) :
    Option PrintJobRecord :=
  store.find? (fun job => job.idempotencyKey == idempotencyKey)

/-- The store's `insert` under the uniqueness constraint on `idempotencyKey`:
rejects with `DuplicateIdempotencyKeyError` when a record with the same key
is already persisted. -/
def insertJob (store : List PrintJobRecord) (job : PrintJobRecord) :
    Except StoreError (List PrintJobRecord) :=
  if store.any (fun existing => existing.idempotencyKey == job.idempotencyKey) then
    .error (.duplicateIdempotencyKey job.idempotencyKey)
  else
    .ok (store ++ [job])

/-- A concurrent writer's successful insert (if any) landing between this
call's lookup and its own insert; the competing insert also goes through the
uniqueness constraint, so it is a no-op when its key is already present. -/
def applyConcurrentInsert (store : List PrintJobRecord)
    (interference : Option PrintJobRecord) : List PrintJobRecord :=
  match interference with
  | none => store
  | some job =>
    match insertJob store job with
    | .ok updated => updated
    | .error _ => store

/-- `toAcceptedResponse(job)` from the contract. -/
def toAcceptedResponse (job : PrintJobRecord) : PrintJobAcceptedResponse :=
  { jobId := job.jobId
    state := job.state
    acceptedAt := job.acceptedAt
    traceId := job.traceId }

/-- The new `PrintJobRecord` the guard constructs (state `pending`); the
system-assigned id (`createJobId`/`createDefaultJobId` in the source) is the
explicit `newJobId` argument. -/
def buildNewPrintJob (request : CreatePrintJobInput) (newJobId : String) :
    PrintJobRecord :=
  { jobId := newJobId
    idempotencyKey := request.idempotencyKey
    printerId := request.printerId
    templateId := request.templateId
    templateVersion := request.templateVersion
    state := .pending
    acceptedAt := request.acceptedAt
    traceId := request.traceId }

/-- `submitPrintJobIdempotently(request, deps)`: look up by key; if absent,
insert a new `pending` job; on a `DuplicateIdempotencyKeyError` raised by the
racing insert, re-read by key and return the winner; rethrow when even the
re-read finds nothing.  The `onDuplicate` logging callback of the source has
no effect on the result and is omitted. -/
def submitPrintJobIdempotently (request : CreatePrintJobInput) (newJobId : String)
    (interference : Option PrintJobRecord) (store : List PrintJobRecord) :
    Except StoreError (List PrintJobRecord × IdempotentSubmissionResult) :=
  match findByIdempotencyKey store request.idempotencyKey with
  | some existing => .ok (store, ⟨existing, toAcceptedResponse existing, true⟩)
  | none =>
    match insertJob (applyConcurrentInsert store interference)
        (buildNewPrintJob request newJobId) with
    | .ok updated =>
      .ok (updated, ⟨buildNewPrintJob request newJobId,
        toAcceptedResponse (buildNewPrintJob request newJobId), false⟩)
    | .error (.duplicateIdempotencyKey _) =>
      match findByIdempotencyKey (applyConcurrentInsert store interference)
          request.idempotencyKey with
      | some duplicated =>
        .ok (applyConcurrentInsert store interference,
          ⟨duplicated, toAcceptedResponse duplicated, true⟩)
      | none => .error (.duplicateIdempotencyKey request.idempotencyKey)

/-- The store invariant the uniqueness constraint maintains: no two records
share an `idempotencyKey`. -/
def uniqueIdempotencyKeys (store : List PrintJobRecord) : Prop :=
  (store.map (fun job => job.idempotencyKey)).Nodup

instance (store : List PrintJobRecord) : Decidable (uniqueIdempotencyKeys store) := by
  unfold uniqueIdempotencyKeys
  infer_instance

/-- Number of persisted records carrying a given idempotency key. -/
def countWithKey (store : List PrintJobRecord) (idempotencyKey : String) : Nat :=
  (store.filter (fun job => job.idempotencyKey == idempotencyKey)).length

/-! ## Command consumer loop (agent `mqttconsume` package)

The agent's Go consumer and the repository's TypeScript consumer implement
the same contract; the Go package is embedded here (its deduper factors the
bookkeeping that the TypeScript closure inlines, with identical semantics).
Wire payloads are modelled as already-tokenized JSON values; a JSON decode
of well-formed text yields such a value, so per-message handling starts from
it. -/

/-- A JSON value. -/
inductive JsonValue
  | str (s : String)
  | num (n : Int)
  | jsonBool (b : Bool)
  | null
  | arr (elems : List JsonValue)
  | obj (fields : List (String × JsonValue))
deriving Repr

/-- `PrintJobCommand` — the dispatch payload struct (field names are the
JSON keys; the Go struct tags map `EventID` to `eventId`, and so on). -/
structure PrintJobCommand where
  schemaVersion : String
  type : String
  eventId : String
  traceId : String
  jobId : String
  printerId : String
  objectUrl : String
  issuedAt : String
deriving DecidableEq, Repr

/-- The eight declared command fields of the wire contract. -/
def COMMAND_FIELD_NAMES : List String :=
  ["schemaVersion", "type", "eventId", "traceId", "jobId", "printerId",
   "objectUrl", "issuedAt"]

/-- JSON object key lookup as `encoding/json` resolves it: when a key occurs
more than once, the last occurrence wins. -/
def lookupJsonField (fields : List (String × JsonValue)) (key : String) :
    Option JsonValue :=
  fields.foldl (fun acc field => if field.1 == key then some field.2 else acc) none

/-- Decoding one string field of the command struct.  An absent key or a
JSON `null` leaves the Go zero value `""`; a value of any other non-string
type is a decode error.  `json.Unmarshal` is used without
`DisallowUnknownFields`, so keys outside the struct's eight fields are
simply ignored and cannot fail the decode. -/
def decodeStringField (fields : List (String × JsonValue)) (key : String) :
    Except String String :=
  match lookupJsonField fields key with
  | none => .ok ""
  | some (.str s) => .ok s
  | some .null => .ok ""
  | some _ => .error ("cannot unmarshal value into string field " ++ key)

/-- `json.Unmarshal(payload, &command)` for the command struct. -/
def unmarshalPrintJobCommand (payload : JsonValue) : Except String PrintJobCommand :=
  match payload with
  | .obj fields => do
    let schemaVersion ← decodeStringField fields "schemaVersion"
    let type ← decodeStringField fields "type"
    let eventId ← decodeStringField fields "eventId"
    let traceId ← decodeStringField fields "traceId"
    let jobId ← decodeStringField fields "jobId"
    let printerId ← decodeStringField fields "printerId"
    let objectUrl ← decodeStringField fields "objectUrl"
    let issuedAt ← decodeStringField fields "issuedAt"
    .ok ⟨schemaVersion, type, eventId, traceId, jobId, printerId, objectUrl, issuedAt⟩
  | .null => .ok ⟨"", "", "", "", "", "", "", ""⟩
  | _ => .error "cannot unmarshal payload into PrintJobCommand"

/-- Whitespace trimming on the underlying characters (model of Go
`strings.TrimSpace` and JavaScript `String.prototype.trim`). -/
def trimChars (cs : List Char) : List Char :=
  ((cs.dropWhile Char.isWhitespace).reverse.dropWhile Char.isWhitespace).reverse

/-- String form of `trimChars`. -/
def trimString (s : String) : String := ⟨trimChars s.data⟩

/-- `strings.TrimSpace(s) == ""`. -/
def isBlankString (s : String) : Bool := (trimChars s.data).isEmpty

/-- The `schemaVersionPattern` regular expression of the consumer,
`1\.[0-9]+\.[0-9]+` anchored at both ends. -/
def schemaVersionPatternMatches (s : String) : Bool :=
  match s.data with
  | '1' :: '.' :: rest =>
    match rest.span Char.isDigit with
    | (ds1, '.' :: rest2) =>
      !ds1.isEmpty &&
        (match rest2.span Char.isDigit with
         | (ds2, rest3) => !ds2.isEmpty && rest3.isEmpty)
    | _ => false
  | _ => false

/-- Scheme/remainder division of a URL at the first `://`. -/
def breakURLScheme : List Char → Option (List Char × List Char)
  | [] => none
  | ':' :: '/' :: '/' :: rest => some ([], rest)
  | c :: rest => (breakURLScheme rest).map (fun p => (c :: p.1, p.2))

/-- Scheme and authority of a parsed absolute URL. -/
structure URLParts where
  scheme : String
  host : String
deriving DecidableEq, Repr

/-- Model of the platform URL parsers (`net/url.ParseRequestURI`, the WHATWG
`URL` constructor) restricted to hierarchical `scheme://authority/...`
shapes: yields the scheme and the authority (host) component, and `none`
for a relative reference with no scheme separator.  URLs whose path or query
contain a further `://` are outside the model; no claim depends on them. -/
def parseAbsoluteURL (s : String) : Option URLParts :=
  match breakURLScheme s.data with
  | none => none
  | some (schemeChars, rest) =>
    if schemeChars.isEmpty then none
    else some ⟨⟨schemeChars⟩, ⟨rest.takeWhile (fun c => c ≠ '/' && c ≠ '?' && c ≠ '#')⟩⟩

/-- Consume exactly `k` digits, returning their value and the rest. -/
def takeNatDigits (cs : List Char) (k : Nat) : Option (Nat × List Char) :=
  let ds := cs.take k
  if ds.length == k && ds.all Char.isDigit then
    some (ds.foldl (fun acc c => acc * 10 + (c.toNat - 48)) 0, cs.drop k)
  else
    none

/-- Consume one expected character. -/
def expectChar (c : Char) : List Char → Option (List Char)
  | [] => none
  | x :: rest => if x = c then some rest else none

/-- Consume `k` digits whose value lies in `[lo, hi]`. -/
def digitsInRange (cs : List Char) (k lo hi : Nat) : Option (List Char) :=
  match takeNatDigits cs k with
  | none => none
  | some (value, rest) => if lo ≤ value ∧ value ≤ hi then some rest else none

/-- Model of `time.Parse` with the RFC3339/RFC3339Nano layouts (the consumer
accepts either): full date, `T`, time, optional fractional seconds, and a
`Z` or `±hh:mm` offset.  Days are checked against the simplified range
1..31 rather than the exact calendar; no claim depends on the difference. -/
def checkRFC3339 (cs : List Char) : Option Unit := do
  let cs ← digitsInRange cs 4 0 9999
  let cs ← expectChar '-' cs
  let cs ← digitsInRange cs 2 1 12
  let cs ← expectChar '-' cs
  let cs ← digitsInRange cs 2 1 31
  let cs ← expectChar 'T' cs
  let cs ← digitsInRange cs 2 0 23
  let cs ← expectChar ':' cs
  let cs ← digitsInRange cs 2 0 59
  let cs ← expectChar ':' cs
  let cs ← digitsInRange cs 2 0 59
  let cs ← (match cs with
    | '.' :: fracStart =>
      match fracStart.span Char.isDigit with
      | (frac, rest2) => if frac.isEmpty then none else some rest2
    | other => some other)
  match cs with
  | ['Z'] => some ()
  | sign :: rest =>
    if sign = '+' ∨ sign = '-' then do
      let rest ← digitsInRange rest 2 0 23
      let rest ← expectChar ':' rest
      let rest ← digitsInRange rest 2 0 59
      if rest.isEmpty then some () else none
    else
      none
  | [] => none

/-- Whether a string parses as an RFC3339 timestamp. -/
def isRFC3339Timestamp (s : String) : Bool := (checkRFC3339 s.data).isSome

/-- `validatePrintJobCommand(command)`: the consumer's field checks in source
order; returns the first violation's message, or `none` when valid. -/
def validatePrintJobCommand (command : PrintJobCommand) : Option String :=
  if !(schemaVersionPatternMatches command.schemaVersion) then
    some "schemaVersion must match major version 1 semver format"
  else if command.type ≠ "print_job_dispatch" then
    some "type must equal print_job_dispatch"
  else if isBlankString command.eventId then
    some "eventId is required"
  else if isBlankString command.traceId then
    some "traceId is required"
  else if isBlankString command.jobId then
    some "jobId is required"
  else if isBlankString command.printerId then
    some "printerId is required"
  else if isBlankString command.objectUrl then
    some "objectUrl is required"
  else
    match parseAbsoluteURL command.objectUrl with
    | none => some "objectUrl must be an absolute URI"
    | some parts =>
      if parts.scheme.data.isEmpty ∨ parts.host.data.isEmpty then
        some "objectUrl must be an absolute URI"
      else if isBlankString command.issuedAt then
        some "issuedAt is required"
      else if !(isRFC3339Timestamp command.issuedAt) then
        some "issuedAt must be a valid RFC3339 timestamp"
      else
        none

/-- `parsePrintJobCommand(payload, logger)`: decode then validate; on
failure the result carries the structured warning `(event, error)` the
consumer logs before dropping the message. -/
def parsePrintJobCommand (payload : JsonValue) :
    Except (String × String) PrintJobCommand :=
  match unmarshalPrintJobCommand payload with
  | .error message => .error ("mqtt_command_decode_failed", message)
  | .ok command =>
    match validatePrintJobCommand command with
    | some message => .error ("mqtt_command_schema_invalid", message)
    | none => .ok command

/-- `recentEventIDCache`: bounded processed-event record — a membership set
paired with an insertion-ordered eviction queue. -/
structure RecentEventIdCache where
  capacity : Nat
  processedSet : List String
  processedQueue : List String
deriving DecidableEq, Repr

/-- `newRecentEventIDCache(capacity)`. -/
def newRecentEventIdCache (capacity : Nat) : RecentEventIdCache :=
  ⟨capacity, [], []⟩

/-- `cache.Has(eventID)`. -/
def RecentEventIdCache.hasEvent (cache : RecentEventIdCache) (eventId : String) :
    Bool :=
  cache.processedSet.contains eventId

/-- `cache.Add(eventID)`: append when absent; evict the oldest queued id
once the queue exceeds capacity. -/
def RecentEventIdCache.addEvent (cache : RecentEventIdCache) (eventId : String) :
    RecentEventIdCache :=
  if cache.processedSet.contains eventId then
    cache
  else
    let processedSet := cache.processedSet ++ [eventId]
    let processedQueue := cache.processedQueue ++ [eventId]
    if processedQueue.length ≤ cache.capacity then
      ⟨cache.capacity, processedSet, processedQueue⟩
    else
      match processedQueue with
      | [] => ⟨cache.capacity, processedSet, processedQueue⟩
      | oldest :: remaining => ⟨cache.capacity, processedSet.erase oldest, remaining⟩

/-- `messageDeduper`: in-flight set plus processed cache. -/
structure MessageDeduper where
  inFlight : List String
  processed : RecentEventIdCache
deriving DecidableEq, Repr

/-- `newMessageDeduper(cacheSize)`. -/
def newMessageDeduper (cacheSize : Nat) : MessageDeduper :=
  ⟨[], newRecentEventIdCache cacheSize⟩

/-- `deduper.Start(eventID)`: refuse when already processed or in flight;
otherwise mark in flight. -/
def MessageDeduper.start (deduper : MessageDeduper) (eventId : String) :
    Bool × MessageDeduper :=
  if deduper.processed.hasEvent eventId then
    (false, deduper)
  else if deduper.inFlight.contains eventId then
    (false, deduper)
  else
    (true, ⟨deduper.inFlight ++ [eventId], deduper.processed⟩)

/-- `deduper.Finish(eventID, success)`: clear in flight; mark processed only
on success. -/
def MessageDeduper.finish (deduper : MessageDeduper) (eventId : String)
    (success : Bool) : MessageDeduper :=
  let cleared : MessageDeduper := ⟨deduper.inFlight.erase eventId, deduper.processed⟩
  if success then
    ⟨cleared.inFlight, cleared.processed.addEvent eventId⟩
  else
    cleared

/-- Result of handling one delivered message. -/
structure MessageOutcome where
  deduper : MessageDeduper
  handlerInvoked : Bool
  handlerError : Option String
  logs : List (String × String)
deriving Repr

/-- The consume loop's per-message path — the `Subscribe` callback body:
decode+validate, printer-identity check, dedup check, handler invocation,
and in-flight/processed bookkeeping.  `onCommand` gives the registered
handler's result for a command (`none` means success, `some err` failure).
Logs record `(level, event)` of each structured log emitted. -/
def handlePrinterJobMessage (printerId : String)
    (onCommand : PrintJobCommand → Option String)
    (deduper : MessageDeduper) (payload : JsonValue) : MessageOutcome :=
  match parsePrintJobCommand payload with
  | .error (event, _message) => ⟨deduper, false, none, [("warn", event)]⟩
  | .ok command =>
    if command.printerId ≠ printerId then
      ⟨deduper, false, none, [("warn", "mqtt_command_printer_mismatch")]⟩
    else
      match deduper.start command.eventId with
      | (false, unchanged) =>
        ⟨unchanged, false, none, [("info", "mqtt_duplicate_command_ignored")]⟩
      | (true, started) =>
        let processErr := onCommand command
        let finished := started.finish command.eventId processErr.isNone
        match processErr with
        | none => ⟨finished, true, none, []⟩
        | some message =>
          ⟨finished, true, some message, [("warn", "mqtt_command_processing_failed")]⟩

/-- Sequential delivery of several messages to one consumer loop, counting
handler invocations. -/
def runPrinterJobMessages (printerId : String)
    (onCommand : PrintJobCommand → Option String) (deduper : MessageDeduper) :
    List JsonValue → MessageDeduper × Nat
  | [] => (deduper, 0)
  | payload :: rest =>
    let outcome := handlePrinterJobMessage printerId onCommand deduper payload
    let result := runPrinterJobMessages printerId onCommand outcome.deduper rest
    (result.1, (if outcome.handlerInvoked then 1 else 0) + result.2)

/-- A canonical valid command payload carrying one extra field beyond the
eight declared ones. -/
def unknownFieldCommandPayload : JsonValue :=
  .obj [("schemaVersion", .str "1.0.0"),
        ("type", .str "print_job_dispatch"),
        ("eventId", .str "event-123"),
        ("traceId", .str "trace-123"),
        ("jobId", .str "job-123"),
        ("printerId", .str "printer-01"),
        ("objectUrl", .str "https://storage.example.com/rendered.pdf"),
        ("issuedAt", .str "2026-02-21T00:00:00Z"),
        ("unexpectedField", .str "not-allowed")]

/-- The command the consumer decodes from `unknownFieldCommandPayload`. -/
def unknownFieldDecodedCommand : PrintJobCommand :=
  ⟨"1.0.0", "print_job_dispatch", "event-123", "trace-123", "job-123",
   "printer-01", "https://storage.example.com/rendered.pdf",
   "2026-02-21T00:00:00Z"⟩

/-- A canonical valid command payload (exactly the eight declared fields). -/
def validCommandPayload : JsonValue :=
  .obj [("schemaVersion", .str "1.2.3"),
        ("type", .str "print_job_dispatch"),
        ("eventId", .str "event-777"),
        ("traceId", .str "trace-777"),
        ("jobId", .str "job-777"),
        ("printerId", .str "printer-01"),
        ("objectUrl", .str "https://storage.example.com/labels/job-777.pdf"),
        ("issuedAt", .str "2026-02-21T12:30:45Z")]

/-- The command decoded from `validCommandPayload`. -/
def validDecodedCommand : PrintJobCommand :=
  ⟨"1.2.3", "print_job_dispatch", "event-777", "trace-777", "job-777",
   "printer-01", "https://storage.example.com/labels/job-777.pdf",
   "2026-02-21T12:30:45Z"⟩

/-! ### Reconnect backoff (consumer loop)

Go `time.Duration` is an integer count of nanoseconds; the float64
multiplier is a rational; Go's conversion of the nonnegative product back to
a `time.Duration` truncates. -/

/-- Milliseconds as a `time.Duration`. -/
def msDuration (n : Nat) : Int := (n : Int) * 1000000

/-- `defaultInitialBackoffDelay = 500ms`. -/
def defaultInitialBackoffDelay : Int := msDuration 500

/-- `defaultMaxBackoffDelay = 10s`. -/
def defaultMaxBackoffDelay : Int := msDuration 10000

/-- `defaultBackoffMultiplier = 2.0`. -/
def defaultBackoffMultiplier : ℚ := 2

/-- `defaultDedupeCacheSize = 2048`. -/
def defaultDedupeCacheSize : Nat := 2048

/-- `BackoffPolicy` from the consumer. -/
structure BackoffPolicy where
  initialDelay : Int
  maxDelay : Int
  multiplier : ℚ
deriving Repr

/-- `normalizeBackoffPolicy`: defaults for non-positive delays, a maximum no
smaller than the initial, and a multiplier defaulted when not above 1. -/
def normalizeBackoffPolicy (backoff : BackoffPolicy) : BackoffPolicy :=
  let initial := if backoff.initialDelay ≤ 0 then defaultInitialBackoffDelay
    else backoff.initialDelay
  let maximum := if backoff.maxDelay ≤ 0 then defaultMaxBackoffDelay
    else backoff.maxDelay
  let maximum := if maximum < initial then initial else maximum
  let multiplier := if backoff.multiplier ≤ 1 then defaultBackoffMultiplier
    else backoff.multiplier
  ⟨initial, maximum, multiplier⟩

/-- Truncation toward zero (Go's float64 → int64 conversion). -/
def ratTruncToInt (q : ℚ) : Int := if q < 0 then ⌈q⌉ else ⌊q⌋

/-- `backoffState`: the next delay to hand out. -/
structure BackoffState where
  policy : BackoffPolicy
  next : Int
deriving Repr

/-- `newBackoffState(policy)`: starts at the initial delay. -/
def newBackoffState (policy : BackoffPolicy) : BackoffState :=
  ⟨policy, policy.initialDelay⟩

/-- `state.Reset()`: back to the initial delay (after a successful
connect-and-subscribe). -/
def BackoffState.reset (state : BackoffState) : BackoffState :=
  ⟨state.policy, state.policy.initialDelay⟩

/-- `state.NextDelay()`: hand out the current delay and scale the stored
next delay by the multiplier, clamped to `[initialDelay, maxDelay]`. -/
def BackoffState.nextDelay (state : BackoffState) : Int × BackoffState :=
  let delay := state.next
  let scaled := ratTruncToInt ((state.next : ℚ) * state.policy.multiplier)
  let scaled := if scaled < state.policy.initialDelay then state.policy.initialDelay
    else scaled
  let scaled := if scaled > state.policy.maxDelay then state.policy.maxDelay
    else scaled
  (delay, ⟨state.policy, scaled⟩)

/-- `resolveCacheSize`: non-positive requested sizes fall back to the
default. -/
def resolveCacheSize (value : Int) : Nat :=
  if value ≤ 0 then defaultDedupeCacheSize else value.toNat

/-! ## Job executor (src/agent/internal/jobexec/executor.go)

The executor's injected collaborators (HTTP client, filesystem, `lp`
command runner) are oracle values recording what each call returned during
one execution.  Downloaded bodies are modelled as strings of characters;
the byte ceiling counts characters. -/

/-- `outcomePrinted` — `Outcome` is a string type in the source. -/
def outcomePrinted : String := "printed"

/-- `outcomeFailed`. -/
def outcomeFailed : String := "failed"

/-- `pdfSignature` — the magic bytes a rendered artifact must start with. -/
def pdfSignature : String := "%PDF-"

/-- `defaultMaxDownloadB = 20 MiB`. -/
def defaultMaxDownloadB : Int := 20 * 1024 * 1024

/-- The executor's `Command` struct. -/
structure ExecCommand where
  eventID : String
  traceID : String
  jobID : String
  printerID : String
  objectURL : String
deriving DecidableEq, Repr

/-- The executor's `Result` struct. -/
structure ExecResult where
  outcome : String
  errorCode : String
  errorMessage : String
  lpOutput : String
deriving DecidableEq, Repr

/-- The executor's `Config` (the injected `HTTPClient`/`CommandRunner` are
the `ExecEnv` oracles). -/
structure ExecConfig where
  spoolDir : String
  cupsPrinterName : String
  lpCommandPath : String
  maxDownloadBytes : Int
deriving Repr

/-- The validated `Executor`. -/
structure Executor where
  spoolDir : String
  cupsPrinterName : String
  lpCommandPath : String
  maxDownloadB : Int
deriving Repr

/-- `NewExecutor(config)`: trim-validate the three paths/names and default
the download ceiling. -/
def NewExecutor (config : ExecConfig) : Option Executor :=
  let spoolDir := trimString config.spoolDir
  if spoolDir.data.isEmpty then none
  else
    let cupsPrinterName := trimString config.cupsPrinterName
    if cupsPrinterName.data.isEmpty then none
    else
      let lpCommandPath := trimString config.lpCommandPath
      if lpCommandPath.data.isEmpty then none
      else
        let maxDownloadBytes :=
          if config.maxDownloadBytes ≤ 0 then defaultMaxDownloadB
          else config.maxDownloadBytes
        some ⟨spoolDir, cupsPrinterName, lpCommandPath, maxDownloadBytes⟩

/-- What the executor's collaborators return during one execution. -/
structure ExecEnv where
  mkdirErr : Option String
  buildRequestErr : Option String
  httpResult : Except String (Nat × String)
  readBodyErr : Option String
  createTempResult : Except String String
  writeErr : Option String
  chmodErr : Option String
  closeErr : Option String
  lpOutput : String
  lpErr : Option String
deriving Repr

/-- `validateCommand(command)`: all five fields must be non-blank. -/
def validateCommand (command : ExecCommand) : Option String :=
  if isBlankString command.eventID then some "eventId is required"
  else if isBlankString command.traceID then some "traceId is required"
  else if isBlankString command.jobID then some "jobId is required"
  else if isBlankString command.printerID then some "printerId is required"
  else if isBlankString command.objectURL then some "objectUrl is required"
  else none

/-- `parseDownloadURL(rawURL)`: absolute URI with a host and an http/https
scheme. -/
def parseDownloadURL (rawURL : String) : Except String URLParts :=
  match parseAbsoluteURL (trimString rawURL) with
  | none => .error "objectUrl must be an absolute URI"
  | some parts =>
    if parts.host.data.isEmpty then .error "objectUrl must include host"
    else if parts.scheme = "http" ∨ parts.scheme = "https" then .ok parts
    else .error "objectUrl scheme is not supported"

/-- `downloadError` — the typed code/message pair of the download step. -/
structure DownloadError where
  code : String
  message : String
deriving DecidableEq, Repr

/-- `downloadPDF`: fetch, status check, bounded read, signature check, and
spool-file write chain; yields the spooled file path. -/
def downloadPDF (executor : Executor) (env : ExecEnv) :
    Except DownloadError String :=
  match env.buildRequestErr with
  | some message => .error ⟨"download_failed", "build download request: " ++ message⟩
  | none =>
    match env.httpResult with
    | .error message => .error ⟨"download_failed", "request rendered PDF: " ++ message⟩
    | .ok (statusCode, body) =>
      if statusCode ≠ 200 then
        .error ⟨"download_failed", "rendered PDF request returned non-OK status"⟩
      else
        match env.readBodyErr with
        | some message => .error ⟨"download_failed", "read rendered PDF body: " ++ message⟩
        | none =>
          let payload := body.data.take (executor.maxDownloadB + 1).toNat
          if (payload.length : Int) > executor.maxDownloadB then
            .error ⟨"download_failed", "rendered PDF exceeded max allowed size"⟩
          else if !(pdfSignature.data.isPrefixOf payload) then
            .error ⟨"invalid_pdf_payload", "downloaded object is not a PDF"⟩
          else
            match env.createTempResult with
            | .error message => .error ⟨"spool_write_failed", "create spool file: " ++ message⟩
            | .ok path =>
              match env.writeErr with
              | some message => .error ⟨"spool_write_failed", "write spool file: " ++ message⟩
              | none =>
                match env.chmodErr with
                | some message =>
                  .error ⟨"spool_write_failed", "set spool file permissions: " ++ message⟩
                | none =>
                  match env.closeErr with
                  | some message => .error ⟨"spool_write_failed", "close spool file: " ++ message⟩
                  | none => .ok path

/-- `failureResult(code, message, lpOutput)`. -/
def failureResult (code message lpOutput : String) : ExecResult :=
  ⟨outcomeFailed, code, message, lpOutput⟩

/-- `Execute(ctx, command)`: validate, parse the URL, prepare the spool
directory, download, spool, and invoke `lp`; always returns a terminal
printed/failed result. -/
def Execute (executor : Executor) (env : ExecEnv) (command : ExecCommand) :
    ExecResult :=
  match validateCommand command with
  | some message => failureResult "invalid_command" message ""
  | none =>
    match parseDownloadURL command.objectURL with
    | .error message => failureResult "invalid_command" message ""
    | .ok _downloadURL =>
      match env.mkdirErr with
      | some message =>
        failureResult "spool_prepare_failed" ("create spool directory: " ++ message) ""
      | none =>
        match downloadPDF executor env with
        | .error derr => failureResult derr.code derr.message ""
        | .ok _downloadedFilePath =>
          let lpOutput := trimString env.lpOutput
          match env.lpErr with
          | some message =>
            failureResult "print_failed" ("lp command failed: " ++ message) lpOutput
          | none => ⟨outcomePrinted, "", "", lpOutput⟩

/-- The five stable outcome codes the specification lists. -/
def SPEC_ERROR_CODES : List String :=
  ["invalid_command", "download_failed", "invalid_pdf_payload",
   "spool_write_failed", "print_failed"]

/-- The six failure codes the executor actually emits: the specification's
five plus `spool_prepare_failed` from the spool-directory-creation step. -/
def EXECUTOR_ERROR_CODES : List String :=
  SPEC_ERROR_CODES ++ ["spool_prepare_failed"]

/-- A valid sample executor configuration. -/
def sampleExecutor : Executor :=
  ⟨"/var/spool/labels", "dymo", "/usr/bin/lp", 20971520⟩

/-- A valid sample command. -/
def sampleExecCommand : ExecCommand :=
  ⟨"event-123", "trace-123", "job-123", "printer-01",
   "https://storage.example.com/rendered.pdf"⟩

/-- An execution in which creating the spool directory fails and everything
else would have succeeded. -/
def mkdirFailEnv : ExecEnv :=
  ⟨some "permission denied", none, .ok (200, "%PDF-1.7\nmock\n"), none,
   .ok "/var/spool/labels/job-123-1.pdf", none, none, none,
   "request id is dymo-42", none⟩

/-- An execution in which the `lp` invocation exits non-zero. -/
def lpFailEnv : ExecEnv :=
  ⟨none, none, .ok (200, "%PDF-1.4\nprint-test\n"), none,
   .ok "/var/spool/labels/job-123-2.pdf", none, none, none,
   "lp: printer busy", some "exit status 1"⟩

/-! ## Command publisher (print-job-command-publisher.ts)

zod string schemas with `.trim()` transform the value before checking, so
the parsed fields are the trimmed inputs.  `Date.parse` acceptance (the
`isoTimestampSchema` refinement) is modelled by the RFC3339 acceptor — an
under-approximation of the lenient JavaScript parser that is adequate here
because no claim depends on the exact accepted set of timestamps. -/

/-- `DEFAULT_SCHEMA_VERSION`. -/
def DEFAULT_SCHEMA_VERSION : String := "1.0.0"

/-- `z.string().trim().min(1)`. -/
def parseTrimNonempty (s : String) : Option String :=
  if (trimString s).data.isEmpty then none else some (trimString s)

/-- `z.string().trim().url()`. -/
def parseTrimUrl (s : String) : Option String :=
  match parseAbsoluteURL (trimString s) with
  | none => none
  | some _ => some (trimString s)

/-- `schemaVersionSchema = z.string().trim().regex(/^1\.[0-9]+\.[0-9]+$/)`. -/
def parseSchemaVersion (s : String) : Option String :=
  if schemaVersionPatternMatches (trimString s) then some (trimString s) else none

/-- `isoTimestampSchema = z.string().trim().min(1).refine(Date.parse ok)`. -/
def parseIsoTimestamp (s : String) : Option String :=
  if (trimString s).data.isEmpty then none
  else if isRFC3339Timestamp (trimString s) then some (trimString s)
  else none

/-- `PublishPrintJobCommandInput` (zod input schema shape). -/
structure PublishPrintJobCommandInput where
  jobId : String
  printerId : String
  traceId : String
  objectUrl : String
  issuedAt : Option String
deriving DecidableEq, Repr

/-- The input after `publishPrintJobCommandInputSchema.parse` (fields
trimmed and validated). -/
structure ParsedPublishInput where
  jobId : String
  printerId : String
  traceId : String
  objectUrl : String
  issuedAt : Option String
deriving DecidableEq, Repr

/-- `publishPrintJobCommandInputSchema.parse(input)`. -/
def parsePublishPrintJobCommandInput (input : PublishPrintJobCommandInput) :
    Option ParsedPublishInput := do
  let jobId ← parseTrimNonempty input.jobId
  let printerId ← parseTrimNonempty input.printerId
  let traceId ← parseTrimNonempty input.traceId
  let objectUrl ← parseTrimUrl input.objectUrl
  match input.issuedAt with
  | none => some ⟨jobId, printerId, traceId, objectUrl, none⟩
  | some issuedAt => do
    let issuedAt ← parseIsoTimestamp issuedAt
    some ⟨jobId, printerId, traceId, objectUrl, some issuedAt⟩

/-- `PrintJobCommandPayload` — the published wire payload. -/
structure PrintJobCommandPayload where
  schemaVersion : String
  type : String
  eventId : String
  traceId : String
  jobId : String
  printerId : String
  objectUrl : String
  issuedAt : String
deriving DecidableEq, Repr

/-- `printJobCommandPayloadSchema.parse(payload)`. -/
def parsePrintJobCommandPayload (payload : PrintJobCommandPayload) :
    Option PrintJobCommandPayload := do
  let schemaVersion ← parseSchemaVersion payload.schemaVersion
  let typeLiteral ←
    if payload.type = "print_job_dispatch" then some payload.type else none
  let eventId ← parseTrimNonempty payload.eventId
  let traceId ← parseTrimNonempty payload.traceId
  let jobId ← parseTrimNonempty payload.jobId
  let printerId ← parseTrimNonempty payload.printerId
  let objectUrl ← parseTrimUrl payload.objectUrl
  let issuedAt ← parseIsoTimestamp payload.issuedAt
  some ⟨schemaVersion, typeLiteral, eventId, traceId, jobId, printerId,
    objectUrl, issuedAt⟩

/-- `buildPrinterJobsTopic(printerId)`: `printers/{trimmed id}/jobs`. -/
def buildPrinterJobsTopic (printerId : String) : Option String := do
  let normalizedPrinterId ← parseTrimNonempty printerId
  some ("printers/" ++ normalizedPrinterId ++ "/jobs")

/-- One message handed to the publisher collaborator: topic, QoS, payload. -/
structure PublishedMessage where
  topic : String
  qos : Nat
  payload : PrintJobCommandPayload
deriving DecidableEq, Repr

/-- `publishPrintJobCommand(input, deps)`: validate the input, choose
`issuedAt` (caller's value or `now()`), `eventId` (caller's generator or
`event-` + a fresh uuid) and the schema version, build the per-printer
topic, hand exactly one `{topic, qos 1, payload}` to the publisher, and
return it.  `nowIso` is `new Date().toISOString()` of the call;
`freshUuid` is the `randomUUID()` value.  The first component lists every
message handed to the publisher collaborator. -/
def publishPrintJobCommand (input : PublishPrintJobCommandInput)
    (depsSchemaVersion : Option String) (nowIso : String)
    (createEventId : Option String) (freshUuid : String) :
    Option (List PublishedMessage × PublishedMessage) := do
  let parsedInput ← parsePublishPrintJobCommandInput input
  let issuedAt := parsedInput.issuedAt.getD nowIso
  let eventId := createEventId.getD ("event-" ++ freshUuid)
  let schemaVersion ← parseSchemaVersion (depsSchemaVersion.getD DEFAULT_SCHEMA_VERSION)
  let topic ← buildPrinterJobsTopic parsedInput.printerId
  let payload ← parsePrintJobCommandPayload
    ⟨schemaVersion, "print_job_dispatch", eventId, parsedInput.traceId,
     parsedInput.jobId, parsedInput.printerId, parsedInput.objectUrl, issuedAt⟩
  some ([⟨topic, 1, payload⟩], ⟨topic, 1, payload⟩)

/-- A publish input whose `jobId` carries leading whitespace (valid under
the zod input schema, which trims before checking non-emptiness). -/
def paddedPublishInput : PublishPrintJobCommandInput :=
  ⟨" job-1", "printer-01", "trace-1",
   "https://storage.example.com/rendered.pdf", none⟩

/-- The single message `publishPrintJobCommand` publishes for
`paddedPublishInput` with no caller-supplied `issuedAt`/`eventId`. -/
def paddedPublishMessage : PublishedMessage :=
  ⟨"printers/printer-01/jobs", 1,
   ⟨"1.0.0", "print_job_dispatch", "event-uuid-1", "trace-1", "job-1",
    "printer-01", "https://storage.example.com/rendered.pdf",
    "2026-02-21T00:00:00Z"⟩⟩

/-! ## Theorems settling the claims -/

/-- C1: the engine's decision agrees with the claim's ordered rule on every
input: same accept/reject outcome, same reject reason, same next state on
acceptance, and the same updated processed set. -/
theorem applyPrintJobTransition_refines_specDecide (input : TransitionInput) :
    (applyPrintJobTransition input).toSpec
      = specDecide input.currentState input.event input.processedEventIds := by
  obtain ⟨jobId, currentState, event, processed⟩ := input
  obtain ⟨eventId, traceId, source, targetState, occurredAt⟩ := event
  cases hdup : processed.contains eventId <;>
    cases currentState <;> cases targetState <;> cases source <;>
      simp only [applyPrintJobTransition, specDecide, setAdd, hdup] <;> rfl

/-- C5 counterexample: with a terminal current state (`printed`) but an
already-processed `eventId`, the engine rejects with `duplicate_event`, not
`terminal_state_locked` — the duplicate check precedes the terminal check. -/
theorem terminal_state_duplicate_event_counterexample :
    (applyPrintJobTransition
        { jobId := "job-1"
          currentState := .printed
          event := { eventId := "e1", traceId := "t1", source := .agent,
                     targetState := .failed, occurredAt := "2026-02-21T00:00:00Z" }
          processedEventIds := ["e1"] }).rejectReason
      = some .duplicate_event := by
  decide

/-- C5 (amended): for every terminal current state and every event whose
`eventId` is not already in the processed set, the engine rejects with
`terminal_state_locked`, leaves the state unchanged, and leaves the
processed set unchanged. -/
theorem terminal_state_locked_rejects (input : TransitionInput)
    (hterm : input.currentState = .printed ∨ input.currentState = .failed)
    (hfresh : input.event.eventId ∉ input.processedEventIds) :
    applyPrintJobTransition input
      = .rejected .terminal_state_locked input.currentState input.processedEventIds
          (buildAuditRecord input .terminal_state_locked) := by
  unfold applyPrintJobTransition
  rcases hterm with h | h <;>
    simp [hfresh, h, TERMINAL_STATES, List.contains] <;>
      intro h1 h2
  · exact absurd h1 (by decide)
  · exact absurd h2 (by decide)

/-- Witness for the amended C5 at a concrete input. -/
theorem terminal_state_locked_rejects_witness :
    applyPrintJobTransition
        { jobId := "job-2"
          currentState := .failed
          event := { eventId := "e9", traceId := "t9", source := .backend,
                     targetState := .processing, occurredAt := "2026-02-21T00:00:01Z" }
          processedEventIds := ["e1", "e2"] }
      = .rejected .terminal_state_locked .failed ["e1", "e2"]
          (buildAuditRecord
            { jobId := "job-2"
              currentState := .failed
              event := { eventId := "e9", traceId := "t9", source := .backend,
                         targetState := .processing, occurredAt := "2026-02-21T00:00:01Z" }
              processedEventIds := ["e1", "e2"] } .terminal_state_locked) := by
  exact terminal_state_locked_rejects _ (Or.inr rfl) (by decide)

/-- C8: every rejected decision leaves the job state unchanged
(`nextState = currentState`) and returns the input processed set unchanged
(the event's `eventId` is not added). -/
theorem rejected_transition_changes_nothing (input : TransitionInput)
    (hrej : (applyPrintJobTransition input).isAccepted = false) :
    (applyPrintJobTransition input).nextState = input.currentState ∧
      (applyPrintJobTransition input).processed = input.processedEventIds := by
  unfold applyPrintJobTransition at *
  by_cases hdup : input.processedEventIds.contains input.event.eventId <;>
    by_cases hterm : TERMINAL_STATES.contains input.currentState <;>
      by_cases hallow : isTransitionAllowed input.currentState input.event.targetState <;>
        by_cases hauth : sourceCanApplyTransition input.currentState
            input.event.targetState input.event.source <;>
          simp_all [TransitionDecision.isAccepted, TransitionDecision.nextState,
            TransitionDecision.processed]

/-- Witness for C8 at a concrete rejected input (an invalid edge). -/
theorem rejected_transition_changes_nothing_witness :
    (applyPrintJobTransition
        { jobId := "job-3"
          currentState := .pending
          event := { eventId := "e7", traceId := "t7", source := .backend,
                     targetState := .printed, occurredAt := "2026-02-21T00:00:02Z" }
          processedEventIds := ["e5"] }).nextState = .pending ∧
      (applyPrintJobTransition
        { jobId := "job-3"
          currentState := .pending
          event := { eventId := "e7", traceId := "t7", source := .backend,
                     targetState := .printed, occurredAt := "2026-02-21T00:00:02Z" }
          processedEventIds := ["e5"] }).processed = ["e5"] :=
  rejected_transition_changes_nothing _ (by decide)

/-! ### Submission-guard lemmas (C2) -/

theorem findByIdempotencyKey_eq_none (store : List PrintJobRecord) (key : String) :
    findByIdempotencyKey store key = none ↔
      ∀ j ∈ store, j.idempotencyKey ≠ key := by
  simp [findByIdempotencyKey, List.find?_eq_none]

theorem findByIdempotencyKey_mem {store : List PrintJobRecord} {key : String}
    {j : PrintJobRecord} (h : findByIdempotencyKey store key = some j) :
    j ∈ store ∧ j.idempotencyKey = key := by
  refine ⟨List.mem_of_find?_eq_some h, ?_⟩
  have := List.find?_some h
  simpa using this

theorem insertJob_ok (store : List PrintJobRecord) (job : PrintJobRecord)
    (h : ∀ j ∈ store, j.idempotencyKey ≠ job.idempotencyKey) :
    insertJob store job = .ok (store ++ [job]) := by
  unfold insertJob
  have : store.any (fun existing => existing.idempotencyKey == job.idempotencyKey) = false := by
    simp only [List.any_eq_false]
    intro x hx
    simpa using h x hx
  simp [this]

theorem insertJob_error (store : List PrintJobRecord) (job : PrintJobRecord)
    (j : PrintJobRecord) (hj : j ∈ store)
    (hkey : j.idempotencyKey = job.idempotencyKey) :
    insertJob store job = .error (.duplicateIdempotencyKey job.idempotencyKey) := by
  unfold insertJob
  have : store.any (fun existing => existing.idempotencyKey == job.idempotencyKey) = true := by
    simp only [List.any_eq_true]
    exact ⟨j, hj, by simpa using hkey⟩
  simp [this]

theorem findByIdempotencyKey_append (store₁ store₂ : List PrintJobRecord) (key : String)
    (h : findByIdempotencyKey store₁ key = none) :
    findByIdempotencyKey (store₁ ++ store₂) key = findByIdempotencyKey store₂ key := by
  induction store₁ with
  | nil => rfl
  | cons a l ih =>
    unfold findByIdempotencyKey at *
    simp only [List.cons_append, List.find?] at *
    cases hpa : (a.idempotencyKey == key) with
    | true => simp [hpa] at h
    | false => simp only [hpa] at h ⊢; exact ih h

theorem find_of_mem_unique (store : List PrintJobRecord)
    (hU : uniqueIdempotencyKeys store) (j : PrintJobRecord) (hmem : j ∈ store) :
    findByIdempotencyKey store j.idempotencyKey = some j := by
  induction store with
  | nil => cases hmem
  | cons a l ih =>
    unfold uniqueIdempotencyKeys at hU
    simp only [List.map_cons, List.nodup_cons] at hU
    rcases List.mem_cons.mp hmem with hja | hjl
    · subst hja
      unfold findByIdempotencyKey
      simp [List.find?]
    · unfold findByIdempotencyKey
      simp only [List.find?]
      cases hpa : (a.idempotencyKey == j.idempotencyKey) with
      | true =>
        exfalso
        have : a.idempotencyKey = j.idempotencyKey := by simpa using hpa
        exact hU.1 (this ▸ List.mem_map_of_mem (fun job => job.idempotencyKey) hjl)
      | false => exact ih hU.2 hjl

theorem countWithKey_le_one (store : List PrintJobRecord)
    (hU : uniqueIdempotencyKeys store) (key : String) :
    countWithKey store key ≤ 1 := by
  induction store with
  | nil => simp [countWithKey]
  | cons a l ih =>
    unfold uniqueIdempotencyKeys at hU
    simp only [List.map_cons, List.nodup_cons] at hU
    unfold countWithKey at *
    cases hpa : (a.idempotencyKey == key) with
    | true =>
      have hak : a.idempotencyKey = key := by simpa using hpa
      have hnil : l.filter (fun job => job.idempotencyKey == key) = [] := by
        rw [List.filter_eq_nil_iff]
        intro x hx hxk
        have : x.idempotencyKey = key := by simpa using hxk
        exact hU.1 ((hak.trans this.symm) ▸ List.mem_map_of_mem (fun job => job.idempotencyKey) hx)
      simp [List.filter, hpa, hnil]
    | false =>
      simpa [List.filter, hpa] using ih hU.2

theorem uniqueKeys_append_singleton (store : List PrintJobRecord) (job : PrintJobRecord)
    (hU : uniqueIdempotencyKeys store)
    (h : ∀ j ∈ store, j.idempotencyKey ≠ job.idempotencyKey) :
    uniqueIdempotencyKeys (store ++ [job]) := by
  unfold uniqueIdempotencyKeys at *
  rw [List.map_append, List.nodup_append]
  refine ⟨hU, by simp, ?_⟩
  intro x hx
  simp only [List.mem_map] at hx
  obtain ⟨j, hj, rfl⟩ := hx
  simp [h j hj]

theorem insertJob_ok_inv {store : List PrintJobRecord} {job : PrintJobRecord}
    {updated : List PrintJobRecord} (h : insertJob store job = .ok updated) :
    updated = store ++ [job] ∧
      ∀ j ∈ store, j.idempotencyKey ≠ job.idempotencyKey := by
  unfold insertJob at h
  by_cases hany :
      store.any (fun existing => existing.idempotencyKey == job.idempotencyKey) = true
  · rw [if_pos hany] at h
    cases h
  · rw [if_neg hany] at h
    cases h
    refine ⟨rfl, ?_⟩
    intro j hj
    have hfalse := Bool.eq_false_iff.mpr hany
    have := List.any_eq_false.mp hfalse j hj
    simpa using this

theorem mem_applyConcurrentInsert {store : List PrintJobRecord}
    {interference : Option PrintJobRecord} {j : PrintJobRecord}
    (h : j ∈ applyConcurrentInsert store interference) :
    j ∈ store ∨ interference = some j := by
  cases interference with
  | none => exact Or.inl h
  | some r =>
    unfold applyConcurrentInsert insertJob at h
    by_cases hany :
        store.any (fun existing => existing.idempotencyKey == r.idempotencyKey) = true
    · simp only [hany] at h
      exact Or.inl h
    · simp only [Bool.not_eq_true] at hany
      simp only [hany] at h
      rcases List.mem_append.mp h with hl | hr
      · exact Or.inl hl
      · simp only [List.mem_singleton] at hr
        exact Or.inr (by rw [hr])

theorem applyConcurrentInsert_unique (store : List PrintJobRecord)
    (interference : Option PrintJobRecord) (hU : uniqueIdempotencyKeys store) :
    uniqueIdempotencyKeys (applyConcurrentInsert store interference) := by
  cases interference with
  | none => exact hU
  | some r =>
    unfold applyConcurrentInsert insertJob
    by_cases hany :
        store.any (fun existing => existing.idempotencyKey == r.idempotencyKey) = true
    · simp only [hany]; exact hU
    · simp only [Bool.not_eq_true] at hany
      simp only [hany]
      refine uniqueKeys_append_singleton store r hU ?_
      intro j hj
      have := (List.any_eq_false.mp hany) j hj
      simpa using this

/-- C2: the idempotent submission guard.  Over any store satisfying the
uniqueness constraint: (1) an existing job with the key is returned with
`duplicate = true` and the store is untouched; (2) with no existing job and
no racing insert of the same key, a new `pending` job is inserted and
returned with `duplicate = false`; (3) when a concurrent writer wins the
race on the same key, the guard re-reads and returns the winner's job with
`duplicate = true`; (4) every successful submission returns a persisted job
with the requested key, preserves uniqueness, and leaves at most one job per
idempotency key; (5) a second call with the same key returns the first
call's job (same `jobId`) as a duplicate without further writes. -/
theorem submitPrintJobIdempotently_contract (request : CreatePrintJobInput)
    (newJobId : String) (interference : Option PrintJobRecord)
    (store : List PrintJobRecord) (hU : uniqueIdempotencyKeys store) :
    (∀ j, findByIdempotencyKey store request.idempotencyKey = some j →
        submitPrintJobIdempotently request newJobId interference store
          = .ok (store, ⟨j, toAcceptedResponse j, true⟩)) ∧
    (findByIdempotencyKey store request.idempotencyKey = none →
      (∀ r, interference = some r → r.idempotencyKey ≠ request.idempotencyKey) →
        submitPrintJobIdempotently request newJobId interference store
          = .ok (applyConcurrentInsert store interference
                  ++ [buildNewPrintJob request newJobId],
              ⟨buildNewPrintJob request newJobId,
               toAcceptedResponse (buildNewPrintJob request newJobId), false⟩)
          ∧ (buildNewPrintJob request newJobId).state = .pending) ∧
    (∀ r, findByIdempotencyKey store request.idempotencyKey = none →
        interference = some r → r.idempotencyKey = request.idempotencyKey →
        submitPrintJobIdempotently request newJobId interference store
          = .ok (store ++ [r], ⟨r, toAcceptedResponse r, true⟩)) ∧
    (∀ updatedStore result,
        submitPrintJobIdempotently request newJobId interference store
          = .ok (updatedStore, result) →
        result.job ∈ updatedStore ∧
        result.job.idempotencyKey = request.idempotencyKey ∧
        uniqueIdempotencyKeys updatedStore ∧
        ∀ key, countWithKey updatedStore key ≤ 1) ∧
    (∀ updatedStore result request₂ newJobId₂ interference₂,
        submitPrintJobIdempotently request newJobId interference store
          = .ok (updatedStore, result) →
        request₂.idempotencyKey = request.idempotencyKey →
        submitPrintJobIdempotently request₂ newJobId₂ interference₂ updatedStore
          = .ok (updatedStore, ⟨result.job, toAcceptedResponse result.job, true⟩)) := by
  have hfound : ∀ j, findByIdempotencyKey store request.idempotencyKey = some j →
      submitPrintJobIdempotently request newJobId interference store
        = .ok (store, ⟨j, toAcceptedResponse j, true⟩) := by
    intro j hj
    unfold submitPrintJobIdempotently
    rw [hj]
  have hfresh : findByIdempotencyKey store request.idempotencyKey = none →
      (∀ r, interference = some r → r.idempotencyKey ≠ request.idempotencyKey) →
      submitPrintJobIdempotently request newJobId interference store
        = .ok (applyConcurrentInsert store interference
                ++ [buildNewPrintJob request newJobId],
            ⟨buildNewPrintJob request newJobId,
             toAcceptedResponse (buildNewPrintJob request newJobId), false⟩) := by
    intro hnone hintf
    have hins : insertJob (applyConcurrentInsert store interference)
        (buildNewPrintJob request newJobId)
        = .ok (applyConcurrentInsert store interference
                ++ [buildNewPrintJob request newJobId]) := by
      apply insertJob_ok
      intro j hj
      rcases mem_applyConcurrentInsert hj with hjs | hji
      · exact (findByIdempotencyKey_eq_none store request.idempotencyKey).mp hnone j hjs
      · exact hintf j hji
    unfold submitPrintJobIdempotently
    simp only [hnone, hins]
  have hrace : ∀ r, findByIdempotencyKey store request.idempotencyKey = none →
      interference = some r → r.idempotencyKey = request.idempotencyKey →
      submitPrintJobIdempotently request newJobId interference store
        = .ok (store ++ [r], ⟨r, toAcceptedResponse r, true⟩) := by
    intro r hnone hintf hkey
    have hnokey : ∀ j ∈ store, j.idempotencyKey ≠ request.idempotencyKey :=
      (findByIdempotencyKey_eq_none store request.idempotencyKey).mp hnone
    have hstep : applyConcurrentInsert store interference = store ++ [r] := by
      subst hintf
      show (match insertJob store r with
            | .ok updated => updated
            | .error _ => store) = store ++ [r]
      rw [insertJob_ok store r (fun j hj => by rw [hkey]; exact hnokey j hj)]
    have herr : insertJob (store ++ [r]) (buildNewPrintJob request newJobId)
        = .error (.duplicateIdempotencyKey
            (buildNewPrintJob request newJobId).idempotencyKey) := by
      apply insertJob_error _ _ r (by simp)
      simpa [buildNewPrintJob] using hkey
    have hreread : findByIdempotencyKey (store ++ [r]) request.idempotencyKey = some r := by
      rw [findByIdempotencyKey_append store [r] request.idempotencyKey hnone]
      unfold findByIdempotencyKey
      simp [List.find?, hkey]
    unfold submitPrintJobIdempotently
    simp only [hnone, hstep, herr, hreread]
  have hinv : ∀ updatedStore result,
      submitPrintJobIdempotently request newJobId interference store
        = .ok (updatedStore, result) →
      result.job ∈ updatedStore ∧
      result.job.idempotencyKey = request.idempotencyKey ∧
      uniqueIdempotencyKeys updatedStore := by
    intro updatedStore result hok
    unfold submitPrintJobIdempotently at hok
    cases hfind : findByIdempotencyKey store request.idempotencyKey with
    | some existing =>
      simp only [hfind, Except.ok.injEq, Prod.mk.injEq] at hok
      obtain ⟨h1, h2⟩ := hok
      subst h1
      subst h2
      obtain ⟨hmem, hkey⟩ := findByIdempotencyKey_mem hfind
      exact ⟨hmem, hkey, hU⟩
    | none =>
      have hU₁ : uniqueIdempotencyKeys (applyConcurrentInsert store interference) :=
        applyConcurrentInsert_unique store interference hU
      cases hins : insertJob (applyConcurrentInsert store interference)
          (buildNewPrintJob request newJobId) with
      | ok inserted =>
        simp only [hfind, hins, Except.ok.injEq, Prod.mk.injEq] at hok
        obtain ⟨h1, h2⟩ := hok
        subst h1
        subst h2
        obtain ⟨hupd, hnew⟩ := insertJob_ok_inv hins
        subst hupd
        refine ⟨by simp, rfl, ?_⟩
        exact uniqueKeys_append_singleton _ _ hU₁ hnew
      | error e =>
        cases e with
        | duplicateIdempotencyKey key =>
          cases hrr : findByIdempotencyKey (applyConcurrentInsert store interference)
              request.idempotencyKey with
          | some duplicated =>
            simp only [hfind, hins, hrr, Except.ok.injEq, Prod.mk.injEq] at hok
            obtain ⟨h1, h2⟩ := hok
            subst h1
            subst h2
            obtain ⟨hmem, hkey⟩ := findByIdempotencyKey_mem hrr
            exact ⟨hmem, hkey, hU₁⟩
          | none =>
            simp only [hfind, hins, hrr] at hok
            exact (Except.noConfusion hok)
  refine ⟨hfound, fun hnone hintf => ⟨hfresh hnone hintf, rfl⟩, hrace, ?_, ?_⟩
  · intro updatedStore result hok
    obtain ⟨hmem, hkey, hU'⟩ := hinv updatedStore result hok
    exact ⟨hmem, hkey, hU', fun key => countWithKey_le_one updatedStore hU' key⟩
  · intro updatedStore result request₂ newJobId₂ interference₂ hok hkey₂
    obtain ⟨hmem, hkey, hU'⟩ := hinv updatedStore result hok
    have hfind₂ : findByIdempotencyKey updatedStore request₂.idempotencyKey
        = some result.job := by
      rw [hkey₂, ← hkey]
      exact find_of_mem_unique updatedStore hU' result.job hmem
    unfold submitPrintJobIdempotently
    rw [hfind₂]

/-- Witness for C2 at a concrete submission: on an empty store, a submission
with key `idem-1` and no racing writer inserts one `pending` job. -/
theorem submitPrintJobIdempotently_contract_witness :
    submitPrintJobIdempotently
        { idempotencyKey := "idem-1", printerId := "printer-1",
          templateId := "label-default", templateVersion := some "v1",
          traceId := "trace-1", acceptedAt := "2026-02-21T00:00:00Z" }
        "job-a1" none []
      = .ok ([buildNewPrintJob
            { idempotencyKey := "idem-1", printerId := "printer-1",
              templateId := "label-default", templateVersion := some "v1",
              traceId := "trace-1", acceptedAt := "2026-02-21T00:00:00Z" } "job-a1"],
          ⟨buildNewPrintJob
            { idempotencyKey := "idem-1", printerId := "printer-1",
              templateId := "label-default", templateVersion := some "v1",
              traceId := "trace-1", acceptedAt := "2026-02-21T00:00:00Z" } "job-a1",
           toAcceptedResponse (buildNewPrintJob
            { idempotencyKey := "idem-1", printerId := "printer-1",
              templateId := "label-default", templateVersion := some "v1",
              traceId := "trace-1", acceptedAt := "2026-02-21T00:00:00Z" } "job-a1"),
           false⟩) :=
  ((submitPrintJobIdempotently_contract
      { idempotencyKey := "idem-1", printerId := "printer-1",
        templateId := "label-default", templateVersion := some "v1",
        traceId := "trace-1", acceptedAt := "2026-02-21T00:00:00Z" }
      "job-a1" none [] (by decide)).2.1 rfl (fun r h => nomatch h)).1

/-! ### Consumer-loop lemmas (C3, C10) -/

theorem contains_false_not_mem {l : List String} {a : String}
    (h : l.contains a = false) : a ∉ l := by
  simpa using h

theorem erase_appended_self {l : List String} {a : String} (h : a ∉ l) :
    (l ++ [a]).erase a = l := by
  rw [List.erase_append_right _ h]
  simp

theorem contains_true_mem {l : List String} {a : String}
    (h : l.contains a = true) : a ∈ l := by
  simpa using h

theorem deduper_start_fresh (deduper : MessageDeduper) (eventId : String)
    (hproc : deduper.processed.hasEvent eventId = false)
    (hflight : deduper.inFlight.contains eventId = false) :
    deduper.start eventId
      = (true, ⟨deduper.inFlight ++ [eventId], deduper.processed⟩) := by
  unfold MessageDeduper.start
  simp [hproc, contains_false_not_mem hflight]

theorem deduper_start_seen (deduper : MessageDeduper) (eventId : String)
    (hseen : deduper.processed.hasEvent eventId = true ∨
      deduper.inFlight.contains eventId = true) :
    deduper.start eventId = (false, deduper) := by
  unfold MessageDeduper.start
  rcases hseen with h | h
  · simp [h]
  · by_cases h2 : deduper.processed.hasEvent eventId = true
    · simp [h2]
    · have h2' : deduper.processed.hasEvent eventId = false := by
        simpa using h2
      simp [h2', contains_true_mem h]

theorem addEvent_hasEvent_self (cache : RecentEventIdCache) (eventId : String)
    (hcoh : cache.processedSet = cache.processedQueue)
    (hcap : 1 ≤ cache.capacity) :
    (cache.addEvent eventId).hasEvent eventId = true := by
  simp only [RecentEventIdCache.addEvent, RecentEventIdCache.hasEvent]
  by_cases hc : eventId ∈ cache.processedSet
  · simp [hc]
  · rw [if_neg (by simp [hc])]
    by_cases hlen : (cache.processedQueue ++ [eventId]).length ≤ cache.capacity
    · rw [if_pos hlen]
      simp
    · rw [if_neg hlen]
      cases hq : cache.processedQueue with
      | nil =>
        exfalso
        rw [hq] at hlen
        simp at hlen
        omega
      | cons oldest remaining =>
        have holdmem : oldest ∈ cache.processedSet := by
          rw [hcoh, hq]
          exact List.mem_cons_self _ _
        show ((cache.processedSet ++ [eventId]).erase oldest).contains eventId = true
        rw [List.erase_append_left _ holdmem]
        simp

/-- C3: per-message deduplication.  For every valid command addressed to
this printer: (1) when its `eventId` is already in the processed cache or in
the in-flight set, the message is dropped — the handler is not invoked, the
bookkeeping is unchanged, and only the duplicate-ignored log is emitted;
(2) delivering the same valid payload twice in succession to a fresh
consumer loop (the handler completing successfully, as in the contract
test) invokes the handler exactly once. -/
theorem consumer_duplicate_commands_dropped (printerId : String)
    (onCommand : PrintJobCommand → Option String) (payload : JsonValue)
    (command : PrintJobCommand)
    (hparse : parsePrintJobCommand payload = .ok command)
    (hprinter : command.printerId = printerId) :
    (∀ deduper : MessageDeduper,
        (deduper.processed.hasEvent command.eventId = true ∨
         deduper.inFlight.contains command.eventId = true) →
        handlePrinterJobMessage printerId onCommand deduper payload
          = ⟨deduper, false, none, [("info", "mqtt_duplicate_command_ignored")]⟩) ∧
    (∀ cacheSize : Nat, 1 ≤ cacheSize → onCommand command = none →
        (runPrinterJobMessages printerId onCommand (newMessageDeduper cacheSize)
            [payload, payload]).2 = 1) := by
  constructor
  · intro deduper hseen
    have hstart := deduper_start_seen deduper command.eventId hseen
    unfold handlePrinterJobMessage
    simp [hparse, hprinter, hstart]
  · intro cacheSize hcap hsucc
    have h1 : handlePrinterJobMessage printerId onCommand (newMessageDeduper cacheSize)
        payload
        = ⟨⟨[], ⟨cacheSize, [command.eventId], [command.eventId]⟩⟩, true, none, []⟩ := by
      have hstart := deduper_start_fresh (newMessageDeduper cacheSize) command.eventId
        (by simp [newMessageDeduper, newRecentEventIdCache, RecentEventIdCache.hasEvent])
        (by simp [newMessageDeduper])
      unfold handlePrinterJobMessage
      simp only [hparse, hprinter, ne_eq, not_true_eq_false, if_false, hstart, hsucc]
      simp [MessageDeduper.finish, newMessageDeduper, newRecentEventIdCache,
        RecentEventIdCache.addEvent, hcap]
    have h2 : handlePrinterJobMessage printerId onCommand
        ⟨[], ⟨cacheSize, [command.eventId], [command.eventId]⟩⟩ payload
        = ⟨⟨[], ⟨cacheSize, [command.eventId], [command.eventId]⟩⟩, false, none,
           [("info", "mqtt_duplicate_command_ignored")]⟩ := by
      have hstart := deduper_start_seen
        ⟨[], ⟨cacheSize, [command.eventId], [command.eventId]⟩⟩ command.eventId
        (Or.inl (by simp [RecentEventIdCache.hasEvent]))
      unfold handlePrinterJobMessage
      simp [hparse, hprinter, hstart]
    simp [runPrinterJobMessages, h1, h2]

/-- Witness for C3 at a concrete valid payload delivered twice. -/
theorem consumer_duplicate_commands_dropped_witness :
    (runPrinterJobMessages "printer-01" (fun _ => none) (newMessageDeduper 2048)
        [validCommandPayload, validCommandPayload]).2 = 1 :=
  (consumer_duplicate_commands_dropped "printer-01" (fun _ => none)
      validCommandPayload validDecodedCommand rfl rfl).2 2048 (by norm_num) rfl

/-- C10: handler failure versus success.  For every valid command addressed
to this printer whose `eventId` is fresh (neither processed nor in flight):
(1) when the registered handler fails, the handler is invoked, the
`eventId` is removed from the in-flight set but NOT added to the processed
cache — the bookkeeping is exactly as before — and a later redelivery of the
same payload invokes the handler again; (2) when the handler succeeds, the
`eventId` is marked processed (in-flight again cleared) and a redelivery no
longer invokes the handler. -/
theorem handler_failure_permits_redelivery (printerId : String)
    (payload : JsonValue) (command : PrintJobCommand)
    (hparse : parsePrintJobCommand payload = .ok command)
    (hprinter : command.printerId = printerId) :
    (∀ (onCommand : PrintJobCommand → Option String) (deduper : MessageDeduper)
        (message : String),
        deduper.processed.hasEvent command.eventId = false →
        deduper.inFlight.contains command.eventId = false →
        onCommand command = some message →
        handlePrinterJobMessage printerId onCommand deduper payload
          = ⟨deduper, true, some message,
             [("warn", "mqtt_command_processing_failed")]⟩ ∧
        (handlePrinterJobMessage printerId onCommand
            (handlePrinterJobMessage printerId onCommand deduper payload).deduper
            payload).handlerInvoked = true) ∧
    (∀ (onCommand : PrintJobCommand → Option String) (deduper : MessageDeduper),
        deduper.processed.processedSet = deduper.processed.processedQueue →
        1 ≤ deduper.processed.capacity →
        deduper.processed.hasEvent command.eventId = false →
        deduper.inFlight.contains command.eventId = false →
        onCommand command = none →
        ((handlePrinterJobMessage printerId onCommand deduper
             payload).deduper.processed.hasEvent command.eventId = true ∧
         (handlePrinterJobMessage printerId onCommand deduper
             payload).deduper.inFlight = deduper.inFlight ∧
         (handlePrinterJobMessage printerId onCommand
            (handlePrinterJobMessage printerId onCommand deduper payload).deduper
            payload).handlerInvoked = false)) := by
  constructor
  · intro onCommand deduper message hproc hflight hfail
    have hstart := deduper_start_fresh deduper command.eventId hproc hflight
    have hmain : handlePrinterJobMessage printerId onCommand deduper payload
        = ⟨deduper, true, some message,
           [("warn", "mqtt_command_processing_failed")]⟩ := by
      unfold handlePrinterJobMessage
      simp only [hparse, hprinter, ne_eq, not_true_eq_false, if_false, hstart, hfail]
      unfold MessageDeduper.finish
      simp only [Option.isNone_some, Bool.false_eq_true, if_false]
      rw [erase_appended_self (contains_false_not_mem hflight)]
    refine ⟨hmain, ?_⟩
    rw [hmain]
    rw [hmain]
  · intro onCommand deduper hcoh hcap hproc hflight hsucc
    have hstart := deduper_start_fresh deduper command.eventId hproc hflight
    have hmain : handlePrinterJobMessage printerId onCommand deduper payload
        = ⟨⟨deduper.inFlight, deduper.processed.addEvent command.eventId⟩,
           true, none, []⟩ := by
      unfold handlePrinterJobMessage
      simp only [hparse, hprinter, ne_eq, not_true_eq_false, if_false, hstart, hsucc]
      unfold MessageDeduper.finish
      simp only [Option.isNone_none, if_true]
      rw [erase_appended_self (contains_false_not_mem hflight)]
    have hmarked : (deduper.processed.addEvent command.eventId).hasEvent
        command.eventId = true :=
      addEvent_hasEvent_self deduper.processed command.eventId hcoh hcap
    refine ⟨by rw [hmain]; exact hmarked, by rw [hmain], ?_⟩
    rw [hmain]
    have hstart₂ := deduper_start_seen
      ⟨deduper.inFlight, deduper.processed.addEvent command.eventId⟩
      command.eventId (Or.inl hmarked)
    unfold handlePrinterJobMessage
    simp [hparse, hprinter, hstart₂]

/-- Witness for C10: a failing handler on a fresh consumer loop leaves the
event unprocessed and a redelivery invokes the handler again. -/
theorem handler_failure_permits_redelivery_witness :
    handlePrinterJobMessage "printer-01" (fun _ => some "lp command failed")
        (newMessageDeduper 2048) validCommandPayload
      = ⟨newMessageDeduper 2048, true, some "lp command failed",
         [("warn", "mqtt_command_processing_failed")]⟩ ∧
    (handlePrinterJobMessage "printer-01" (fun _ => some "lp command failed")
        (handlePrinterJobMessage "printer-01" (fun _ => some "lp command failed")
          (newMessageDeduper 2048) validCommandPayload).deduper
        validCommandPayload).handlerInvoked = true :=
  (handler_failure_permits_redelivery "printer-01" validCommandPayload
      validDecodedCommand rfl rfl).1 (fun _ => some "lp command failed")
    (newMessageDeduper 2048) "lp command failed" rfl rfl rfl

/-- C6 (code bug): a payload carrying a ninth field beyond the eight
declared ones is NOT rejected.  `json.Unmarshal` without
`DisallowUnknownFields` ignores unknown keys (and the TypeScript consumer's
zod schema, lacking `.strict()`, strips them), so the payload decodes,
passes validation, no warning is logged, and the registered handler IS
invoked — contradicting the specification and the package's own test
`TestParsePrintJobCommandRejectsUnknownFields`, which demands a decode
failure naming the unknown field and a drop. -/
theorem unknown_field_payload_invokes_handler :
    parsePrintJobCommand unknownFieldCommandPayload
      = .ok unknownFieldDecodedCommand ∧
    (handlePrinterJobMessage "printer-01" (fun _ => none) (newMessageDeduper 2048)
        unknownFieldCommandPayload).handlerInvoked = true ∧
    (handlePrinterJobMessage "printer-01" (fun _ => none) (newMessageDeduper 2048)
        unknownFieldCommandPayload).logs = [] :=
  ⟨rfl, rfl, rfl⟩

/-- C7: the reconnect backoff.  (1) The first delay handed out is the
configured initial delay; (2) after handing out a delay the stored next
delay is the old one scaled by the multiplier, clamped to
`[initialDelay, maxDelay]`; (3) for a well-formed policy (positive initial
delay not above the maximum, multiplier at least 1) the floor clamp is
inert, so the next stored delay is exactly the scaled previous delay capped
at the maximum; (4) a reset (after a successful connect-and-subscribe)
returns the state to the initial delay; (5) with initial delay 100ms,
multiplier 2, and maximum 10s, two consecutive failures sleep exactly 100ms
then 200ms. -/
theorem backoff_delay_schedule :
    (∀ policy : BackoffPolicy,
        ((newBackoffState policy).nextDelay).1 = policy.initialDelay) ∧
    (∀ state : BackoffState,
        (state.nextDelay).1 = state.next ∧
        ((state.nextDelay).2).next
          = min state.policy.maxDelay
              (max state.policy.initialDelay
                (ratTruncToInt ((state.next : ℚ) * state.policy.multiplier)))) ∧
    (∀ state : BackoffState, 0 < state.policy.initialDelay →
        state.policy.initialDelay ≤ state.policy.maxDelay →
        1 ≤ state.policy.multiplier →
        state.policy.initialDelay ≤ state.next →
        ((state.nextDelay).2).next
          = min state.policy.maxDelay
              (ratTruncToInt ((state.next : ℚ) * state.policy.multiplier))) ∧
    (∀ state : BackoffState, (state.reset).next = state.policy.initialDelay ∧
        ((state.reset).nextDelay).1 = state.policy.initialDelay) ∧
    (((newBackoffState ⟨msDuration 100, msDuration 10000, 2⟩).nextDelay).1
        = msDuration 100 ∧
      (((newBackoffState ⟨msDuration 100, msDuration 10000, 2⟩).nextDelay).2.nextDelay).1
        = msDuration 200) := by
  have harith : ∀ s lo hi : Int,
      (if (if s < lo then lo else s) > hi then hi
       else (if s < lo then lo else s)) = min hi (max lo s) := by
    intro s lo hi
    by_cases h1 : s < lo <;> simp only [h1, if_true, if_false] <;> split <;> omega
  have hclamp : ∀ state : BackoffState,
      (state.nextDelay).1 = state.next ∧
      ((state.nextDelay).2).next
        = min state.policy.maxDelay
            (max state.policy.initialDelay
              (ratTruncToInt ((state.next : ℚ) * state.policy.multiplier))) := by
    intro state
    exact ⟨rfl, harith (ratTruncToInt ((state.next : ℚ) * state.policy.multiplier))
      state.policy.initialDelay state.policy.maxDelay⟩
  refine ⟨fun policy => rfl, hclamp, ?_, fun state => ⟨rfl, rfl⟩, rfl, ?_⟩
  · intro state hinit hmax hmult hnext
    have hnext0 : (0 : ℚ) ≤ (state.next : ℚ) := by
      have h0 : (0 : Int) ≤ state.next := le_trans (le_of_lt hinit) hnext
      exact_mod_cast h0
    have hprod : (state.next : ℚ) ≤ (state.next : ℚ) * state.policy.multiplier :=
      le_mul_of_one_le_right hnext0 hmult
    have hmult0 : (0 : ℚ) ≤ state.policy.multiplier := le_trans zero_le_one hmult
    have hfloor : state.next
        ≤ ratTruncToInt ((state.next : ℚ) * state.policy.multiplier) := by
      unfold ratTruncToInt
      rw [if_neg (not_lt.mpr (mul_nonneg hnext0 hmult0))]
      exact Int.le_floor.mpr hprod
    have hinitle : state.policy.initialDelay
        ≤ ratTruncToInt ((state.next : ℚ) * state.policy.multiplier) :=
      le_trans hnext hfloor
    rw [(hclamp state).2, max_eq_right hinitle]
  · show (((newBackoffState ⟨msDuration 100, msDuration 10000, 2⟩).nextDelay).2.nextDelay).1
      = msDuration 200
    norm_num [newBackoffState, BackoffState.nextDelay, ratTruncToInt, msDuration]

/-- Witness for C7 at the contract test's policy (100ms initial, multiplier
2, 10s maximum). -/
theorem backoff_delay_schedule_witness :
    (((newBackoffState ⟨msDuration 100, msDuration 10000, 2⟩).nextDelay).2).next
      = min (msDuration 10000) (ratTruncToInt (((msDuration 100 : Int) : ℚ) * 2)) :=
  backoff_delay_schedule.2.2.1 (newBackoffState ⟨msDuration 100, msDuration 10000, 2⟩)
    (by norm_num [newBackoffState, msDuration]) (by norm_num [newBackoffState, msDuration])
    (by norm_num [newBackoffState]) (le_of_eq rfl)

/-- C4 counterexample: when creating the spool directory fails, `Execute`
returns the failure code `spool_prepare_failed`, which is not one of the
five stable strings the specification lists. -/
theorem execute_spool_prepare_failed_counterexample :
    (Execute sampleExecutor mkdirFailEnv sampleExecCommand).outcome = outcomeFailed ∧
    (Execute sampleExecutor mkdirFailEnv sampleExecCommand).errorCode
      = "spool_prepare_failed" ∧
    (Execute sampleExecutor mkdirFailEnv sampleExecCommand).errorCode
      ∉ SPEC_ERROR_CODES := by
  refine ⟨rfl, rfl, ?_⟩
  decide

/-- C4 (amended): `Execute` is total — every execution returns a terminal
result whose outcome is `printed` or `failed`; every failed result's
`errorCode` is one of the six stable strings (the specification's five plus
`spool_prepare_failed`); and a printed result carries no error code. -/
theorem execute_returns_terminal_result (executor : Executor) (env : ExecEnv)
    (command : ExecCommand) :
    ((Execute executor env command).outcome = outcomePrinted ∨
      (Execute executor env command).outcome = outcomeFailed) ∧
    ((Execute executor env command).outcome = outcomeFailed →
      (Execute executor env command).errorCode ∈ EXECUTOR_ERROR_CODES) ∧
    ((Execute executor env command).outcome = outcomePrinted →
      (Execute executor env command).errorCode = "") := by
  have hdownload : ∀ derr : DownloadError, downloadPDF executor env = .error derr →
      derr.code ∈ ["download_failed", "invalid_pdf_payload", "spool_write_failed"] := by
    intro derr h
    unfold downloadPDF at h
    repeat' (first | split at h | dsimp only at h)
    all_goals first
      | exact Except.noConfusion h
      | (injection h with h1; subst h1; dsimp only; decide)
  have hsub : ∀ c : String,
      c ∈ ["download_failed", "invalid_pdf_payload", "spool_write_failed"] →
      c ∈ EXECUTOR_ERROR_CODES := by
    intro c hc
    fin_cases hc <;> decide
  unfold Execute failureResult
  repeat' split
  all_goals dsimp only
  all_goals first
    | decide
    | (rename_i derr heq
       exact ⟨Or.inr rfl,
         fun _ => hsub derr.code (hdownload derr heq),
         fun hcontra => absurd hcontra (by decide)⟩)

/-- Witness for C4 at a concrete failing execution (`lp` exits non-zero). -/
theorem execute_returns_terminal_result_witness :
    (Execute sampleExecutor lpFailEnv sampleExecCommand).errorCode
      ∈ EXECUTOR_ERROR_CODES :=
  (execute_returns_terminal_result sampleExecutor lpFailEnv sampleExecCommand).2.1 rfl

/-! ### Publisher lemmas (C9): trimming is idempotent -/

theorem dropWhile_dropWhile_same (p : Char → Bool) (l : List Char) :
    (l.dropWhile p).dropWhile p = l.dropWhile p := by
  induction l with
  | nil => rfl
  | cons a l ih =>
    by_cases h : p a
    · simp [List.dropWhile_cons, h, ih]
    · simp [List.dropWhile_cons, h]

theorem head_dropWhile_false (p : Char → Bool) (l : List Char) :
    ∀ c, (l.dropWhile p).head? = some c → p c = false := by
  induction l with
  | nil => intro c h; simp at h
  | cons a l ih =>
    intro c h
    by_cases ha : p a
    · rw [List.dropWhile_cons_of_pos ha] at h
      exact ih c h
    · rw [List.dropWhile_cons_of_neg ha] at h
      simp only [List.head?_cons, Option.some.injEq] at h
      subst h
      simpa using ha

theorem dropWhile_eq_self_of_head_false (p : Char → Bool) (l : List Char)
    (h : ∀ c, l.head? = some c → p c = false) : l.dropWhile p = l := by
  cases l with
  | nil => rfl
  | cons a l =>
    have ha := h a rfl
    simp [List.dropWhile_cons, ha]

theorem trimChars_head_false (cs : List Char) :
    ∀ c, (trimChars cs).head? = some c → c.isWhitespace = false := by
  intro c h
  have hsuffix : (cs.dropWhile Char.isWhitespace).reverse.dropWhile Char.isWhitespace
      <:+ (cs.dropWhile Char.isWhitespace).reverse := List.dropWhile_suffix _
  have hpref : trimChars cs <+: cs.dropWhile Char.isWhitespace := by
    unfold trimChars
    have := List.reverse_prefix.mpr hsuffix
    simpa using this
  obtain ⟨rest, hrest⟩ := hpref
  cases hcase : trimChars cs with
  | nil =>
    rw [hcase] at h
    simp at h
  | cons x xs =>
    rw [hcase] at h
    simp only [List.head?_cons, Option.some.injEq] at h
    rw [hcase] at hrest
    have hhead : (cs.dropWhile Char.isWhitespace).head? = some x := by
      rw [← hrest]
      rfl
    have hxfalse := head_dropWhile_false Char.isWhitespace cs x hhead
    rw [← h]
    exact hxfalse

theorem trimChars_idem (cs : List Char) : trimChars (trimChars cs) = trimChars cs := by
  have h1 : (trimChars cs).dropWhile Char.isWhitespace = trimChars cs :=
    dropWhile_eq_self_of_head_false Char.isWhitespace (trimChars cs)
      (trimChars_head_false cs)
  have h2 : (trimChars cs).reverse.dropWhile Char.isWhitespace = (trimChars cs).reverse := by
    show ((((cs.dropWhile Char.isWhitespace).reverse.dropWhile
        Char.isWhitespace).reverse).reverse).dropWhile Char.isWhitespace = _
    rw [List.reverse_reverse, dropWhile_dropWhile_same]
    rw [show trimChars cs
      = ((cs.dropWhile Char.isWhitespace).reverse.dropWhile Char.isWhitespace).reverse
      from rfl, List.reverse_reverse]
  show ((((trimChars cs).dropWhile Char.isWhitespace).reverse).dropWhile
      Char.isWhitespace).reverse = trimChars cs
  rw [h1, h2, List.reverse_reverse]

theorem trimString_idem (s : String) : trimString (trimString s) = trimString s := by
  unfold trimString
  show (⟨trimChars (⟨trimChars s.data⟩ : String).data⟩ : String) = ⟨trimChars s.data⟩
  rw [show (⟨trimChars s.data⟩ : String).data = trimChars s.data from rfl, trimChars_idem]

theorem parseTrimNonempty_stable {s t : String}
    (h : parseTrimNonempty s = some t) : parseTrimNonempty t = some t := by
  unfold parseTrimNonempty at *
  by_cases hempty : (trimString s).data.isEmpty = true
  · rw [if_pos hempty] at h
    exact absurd h (by simp)
  · rw [if_neg hempty] at h
    simp only [Option.some.injEq] at h
    subst h
    rw [trimString_idem, if_neg hempty]

theorem parseTrimUrl_stable {s t : String}
    (h : parseTrimUrl s = some t) : parseTrimUrl t = some t := by
  unfold parseTrimUrl at *
  cases hurl : parseAbsoluteURL (trimString s) with
  | none =>
    rw [hurl] at h
    exact absurd h (by simp)
  | some parts =>
    rw [hurl] at h
    simp only [Option.some.injEq] at h
    subst h
    rw [trimString_idem, hurl]

theorem parseIsoTimestamp_stable {s t : String}
    (h : parseIsoTimestamp s = some t) : parseIsoTimestamp t = some t := by
  unfold parseIsoTimestamp at *
  by_cases hempty : (trimString s).data.isEmpty = true
  · rw [if_pos hempty] at h
    exact absurd h (by simp)
  · rw [if_neg hempty] at h
    by_cases hrfc : isRFC3339Timestamp (trimString s) = true
    · rw [if_pos hrfc] at h
      simp only [Option.some.injEq] at h
      subst h
      rw [trimString_idem, if_neg hempty, if_pos hrfc]
    · rw [if_neg hrfc] at h
      exact absurd h (by simp)

/-- C9 counterexample: the zod input schema trims fields before use, so a
valid publish input whose `jobId` carries leading whitespace is published
with the trimmed `jobId`, not the caller's verbatim string — the payload
does not echo the raw input. -/
theorem publish_trims_input_counterexample :
    publishPrintJobCommand paddedPublishInput none "2026-02-21T00:00:00Z" none "uuid-1"
      = some ([paddedPublishMessage], paddedPublishMessage) ∧
    paddedPublishMessage.payload.jobId ≠ paddedPublishInput.jobId :=
  ⟨rfl, by decide⟩

/-- C9 (amended): for every input accepted by the publish schema,
`publishPrintJobCommand` publishes exactly one message, addressed to
`printers/{trimmed printerId}/jobs` with QoS 1, whose payload has the
literal type `print_job_dispatch`, carries the trimmed input `jobId`,
`printerId`, `traceId` and `objectUrl`, uses the (trimmed) caller-supplied
`issuedAt` when present and `now()` when absent, and carries the freshly
generated `event-{uuid}` eventId when the caller supplies no generator. -/
theorem publishPrintJobCommand_contract
    (input : PublishPrintJobCommandInput) (nowIso freshUuid : String)
    (parsed : ParsedPublishInput)
    (hinput : parsePublishPrintJobCommandInput input = some parsed)
    (hnowTrim : trimString nowIso = nowIso)
    (hnowRFC : isRFC3339Timestamp nowIso = true)
    (huuidTrim : trimString ("event-" ++ freshUuid) = "event-" ++ freshUuid) :
    publishPrintJobCommand input none nowIso none freshUuid
      = some ([⟨"printers/" ++ parsed.printerId ++ "/jobs", 1,
               ⟨"1.0.0", "print_job_dispatch", "event-" ++ freshUuid,
                parsed.traceId, parsed.jobId, parsed.printerId,
                parsed.objectUrl, parsed.issuedAt.getD nowIso⟩⟩],
             ⟨"printers/" ++ parsed.printerId ++ "/jobs", 1,
              ⟨"1.0.0", "print_job_dispatch", "event-" ++ freshUuid,
               parsed.traceId, parsed.jobId, parsed.printerId,
               parsed.objectUrl, parsed.issuedAt.getD nowIso⟩⟩) := by
  unfold parsePublishPrintJobCommandInput at hinput
  cases hjob : parseTrimNonempty input.jobId with
  | none => simp [hjob] at hinput
  | some jobId =>
  cases hprinter : parseTrimNonempty input.printerId with
  | none => simp [hjob, hprinter] at hinput
  | some printerId =>
  cases htrace : parseTrimNonempty input.traceId with
  | none => simp [hjob, hprinter, htrace] at hinput
  | some traceId =>
  cases hurl : parseTrimUrl input.objectUrl with
  | none => simp [hjob, hprinter, htrace, hurl] at hinput
  | some objectUrl =>
  have hjob' := parseTrimNonempty_stable hjob
  have hprinter' := parseTrimNonempty_stable hprinter
  have htrace' := parseTrimNonempty_stable htrace
  have hurl' := parseTrimUrl_stable hurl
  have hsv : parseSchemaVersion DEFAULT_SCHEMA_VERSION = some "1.0.0" := rfl
  have heventId : parseTrimNonempty ("event-" ++ freshUuid)
      = some ("event-" ++ freshUuid) := by
    unfold parseTrimNonempty
    rw [huuidTrim]
    rfl
  have hnowNonempty : nowIso.data.isEmpty = false := by
    cases hd : nowIso.data with
    | nil =>
      have hfalse : isRFC3339Timestamp nowIso = false := by
        unfold isRFC3339Timestamp checkRFC3339
        rw [hd]
        rfl
      rw [hfalse] at hnowRFC
      exact absurd hnowRFC (by simp)
    | cons c rest => rfl
  have hnowIso : parseIsoTimestamp nowIso = some nowIso := by
    unfold parseIsoTimestamp
    rw [hnowTrim, hnowNonempty, hnowRFC]
    rfl
  have htopic : buildPrinterJobsTopic printerId
      = some ("printers/" ++ printerId ++ "/jobs") := by
    unfold buildPrinterJobsTopic
    rw [hprinter']
    rfl
  cases hiss : input.issuedAt with
  | none =>
    rw [hiss] at hinput
    have hparsed : (⟨jobId, printerId, traceId, objectUrl, none⟩ :
        ParsedPublishInput) = parsed := by
      simpa [hjob, hprinter, htrace, hurl] using hinput
    subst hparsed
    have hpayload : parsePrintJobCommandPayload
        ⟨"1.0.0", "print_job_dispatch", "event-" ++ freshUuid, traceId, jobId,
         printerId, objectUrl, nowIso⟩
        = some ⟨"1.0.0", "print_job_dispatch", "event-" ++ freshUuid, traceId,
            jobId, printerId, objectUrl, nowIso⟩ := by
      unfold parsePrintJobCommandPayload
      simp [heventId, htrace', hjob', hprinter', hurl', hnowIso,
        show parseSchemaVersion "1.0.0" = some "1.0.0" from rfl]
    unfold publishPrintJobCommand parsePublishPrintJobCommandInput
    simp [hjob, hprinter, htrace, hurl, hiss, hsv, htopic, hpayload]
  | some issuedAtRaw =>
    rw [hiss] at hinput
    cases hts : parseIsoTimestamp issuedAtRaw with
    | none => simp [hjob, hprinter, htrace, hurl, hts] at hinput
    | some issuedAt =>
    have hparsed : (⟨jobId, printerId, traceId, objectUrl, some issuedAt⟩ :
        ParsedPublishInput) = parsed := by
      simpa [hjob, hprinter, htrace, hurl, hts] using hinput
    subst hparsed
    have hts' := parseIsoTimestamp_stable hts
    have hpayload : parsePrintJobCommandPayload
        ⟨"1.0.0", "print_job_dispatch", "event-" ++ freshUuid, traceId, jobId,
         printerId, objectUrl, issuedAt⟩
        = some ⟨"1.0.0", "print_job_dispatch", "event-" ++ freshUuid, traceId,
            jobId, printerId, objectUrl, issuedAt⟩ := by
      unfold parsePrintJobCommandPayload
      simp [heventId, htrace', hjob', hprinter', hurl', hts',
        show parseSchemaVersion "1.0.0" = some "1.0.0" from rfl]
    unfold publishPrintJobCommand parsePublishPrintJobCommandInput
    simp [hjob, hprinter, htrace, hurl, hiss, hts, hsv, htopic, hpayload]

/-- Witness for the amended C9 at a concrete clean input carrying its own
`issuedAt`. -/
theorem publishPrintJobCommand_contract_witness :
    publishPrintJobCommand
        ⟨"job-9", "printer-02", "trace-9",
         "https://storage.example.com/labels/job-9.pdf",
         some "2026-02-21T09:00:00Z"⟩ none "2026-02-21T08:59:59Z" none "u-9"
      = some ([⟨"printers/printer-02/jobs", 1,
               ⟨"1.0.0", "print_job_dispatch", "event-u-9", "trace-9", "job-9",
                "printer-02", "https://storage.example.com/labels/job-9.pdf",
                "2026-02-21T09:00:00Z"⟩⟩],
             ⟨"printers/printer-02/jobs", 1,
              ⟨"1.0.0", "print_job_dispatch", "event-u-9", "trace-9", "job-9",
               "printer-02", "https://storage.example.com/labels/job-9.pdf",
               "2026-02-21T09:00:00Z"⟩⟩) :=
  publishPrintJobCommand_contract
    ⟨"job-9", "printer-02", "trace-9",
     "https://storage.example.com/labels/job-9.pdf", some "2026-02-21T09:00:00Z"⟩
    "2026-02-21T08:59:59Z" "u-9"
    ⟨"job-9", "printer-02", "trace-9",
     "https://storage.example.com/labels/job-9.pdf", some "2026-02-21T09:00:00Z"⟩
    rfl rfl rfl rfl
